import Mathlib

/-!
Verification of the order/refund reconciliation core of `OrderHistory.py`.

Shallow embedding conventions:
* Python `dict`s (unique keys, insertion order, first-match lookup) are
  association lists `List (key × value)`; `dict` mutation becomes explicit
  state passing.
* Python `float` money values are modelled as rationals `ℚ`: every money
  operation in the program is parsing, addition and subtraction of decimal
  literals, which the rationals represent exactly.
* `float(str)` (the builtin conversion used by `parse_money`) is modelled on
  the decimal-literal grammar `[+|-] digits [. digits] [(e|E) [+|-] digits]`
  (surrounding whitespace tolerated); the exotic accepted spellings
  (`inf`, `nan`, digit-group underscores) are outside the modelled grammar,
  and no input exercised here uses them.
* `datetime.fromisoformat` is modelled on `YYYY-MM-DD` optionally followed by
  a separator (`T` or space) and `HH:MM[:SS]`, with real calendar validation
  (month range, month lengths, leap years), returning `none` where CPython
  raises `ValueError`.  The resulting `DateTime` carries no timezone field:
  parsed data is naive, exactly as in the program (which strips the UTC
  designator before parsing).
* Functions that can raise an error that propagates return `Except`;
  functions that swallow conversion failure return `Option`.
-/

set_option autoImplicit false

namespace OrderHistory

/-! ## String helpers (Python `str` methods used by the source) -/

/-- Python `value.strip()`: remove whitespace from both ends. -/
def pyStrip (s : String) : String :=
  ⟨((s.data.dropWhile Char.isWhitespace).reverse.dropWhile Char.isWhitespace).reverse⟩

/-- Python `value.replace(",", "")`: delete every comma, at any position. -/
def removeCommas (s : String) : String :=
  ⟨s.data.filter (fun c => c ≠ ',')⟩

/-- Python `s.replace("Z", "")` as used on the `Order Date` column: delete
every `Z` character. -/
def removeZ (s : String) : String :=
  ⟨s.data.filter (fun c => c ≠ 'Z')⟩

/-! ## Model of the builtin `float(str)` conversion -/

/-- Numeric value of a decimal digit character. -/
def digitVal (c : Char) : ℕ := c.toNat - 48

@[simp] theorem digitVal_zero : digitVal '0' = 0 := by decide
@[simp] theorem digitVal_one : digitVal '1' = 1 := by decide
@[simp] theorem digitVal_two : digitVal '2' = 2 := by decide
@[simp] theorem digitVal_three : digitVal '3' = 3 := by decide
@[simp] theorem digitVal_four : digitVal '4' = 4 := by decide
@[simp] theorem digitVal_five : digitVal '5' = 5 := by decide
@[simp] theorem digitVal_six : digitVal '6' = 6 := by decide
@[simp] theorem digitVal_seven : digitVal '7' = 7 := by decide
@[simp] theorem digitVal_eight : digitVal '8' = 8 := by decide
@[simp] theorem digitVal_nine : digitVal '9' = 9 := by decide

/-- Value of a list of decimal digit characters, most significant first. -/
def natOfDigits (ds : List Char) : ℕ :=
  ds.foldl (fun n c => 10 * n + digitVal c) 0

/-- Optional exponent suffix of a float literal: empty input keeps the
mantissa, `e`/`E` with optional sign and at least one digit scales it, and
anything else is a conversion failure. -/
def pyFloatExp (mant : ℚ) (cs : List Char) : Option ℚ :=
  match cs with
  | [] => some mant
  | c :: t =>
    if c = 'e' ∨ c = 'E' then
      let signDigits : Bool × List Char :=
        match t with
        | '+' :: u => (false, u)
        | '-' :: u => (true, u)
        | _ => (false, t)
      let ed := signDigits.2.takeWhile Char.isDigit
      let r := signDigits.2.dropWhile Char.isDigit
      if ed.isEmpty ∨ ¬ r.isEmpty then none
      else if signDigits.1 then some (mant / 10 ^ natOfDigits ed)
      else some (mant * 10 ^ natOfDigits ed)
    else none

/-- Unsigned part of a float literal: integer digits, an optional fraction
introduced by `.`, then the exponent suffix.  At least one digit must occur
on one side of the point. -/
def pyFloatUnsigned (cs : List Char) : Option ℚ :=
  let ip := cs.takeWhile Char.isDigit
  let r1 := cs.dropWhile Char.isDigit
  match r1 with
  | '.' :: t =>
    let fp := t.takeWhile Char.isDigit
    let r2 := t.dropWhile Char.isDigit
    if ip.isEmpty ∧ fp.isEmpty then none
    else pyFloatExp ((natOfDigits ip : ℚ) + (natOfDigits fp : ℚ) / 10 ^ fp.length) r2
  | _ =>
    if ip.isEmpty then none
    else pyFloatExp (natOfDigits ip : ℚ) r1

/-- Model of Python `float(s)` on decimal literals: strip surrounding
whitespace, an optional sign, then the unsigned literal.  Returns `none`
where CPython raises `ValueError`. -/
def pyFloat (s : String) : Option ℚ :=
  match (pyStrip s).data with
  | '+' :: rest => pyFloatUnsigned rest
  | '-' :: rest => (pyFloatUnsigned rest).map Neg.neg
  | cs => pyFloatUnsigned cs

/-! ## `parse_money` (source lines 13–26) -/

/-- `parse_money(value)`: `None` input gives `None`; strip whitespace; an
empty result gives `None`; delete commas; attempt `float` conversion,
giving `None` on failure instead of raising. -/
def parse_money (value : Option String) : Option ℚ :=
  match value with
  | none => none
  | some v0 =>
    let v1 := pyStrip v0
    if v1 = "" then none
    else pyFloat (removeCommas v1)

/-! ## Model of `datetime.fromisoformat` -/

/-- A naive (timezone-free) date-time, as produced by
`datetime.fromisoformat` after the program deletes the UTC designator. -/
structure DateTime where
  year : ℕ
  month : ℕ
  day : ℕ
  hour : ℕ
  minute : ℕ
  second : ℕ
deriving DecidableEq

/-- Gregorian leap-year rule, as in `datetime`. -/
def isLeapYear (y : ℕ) : Bool :=
  (y % 4 == 0 && y % 100 != 0) || y % 400 == 0

/-- Length of month `m` of year `y`, as in `datetime`. -/
def daysInMonth (y m : ℕ) : ℕ :=
  if m = 2 then (if isLeapYear y then 29 else 28)
  else if m = 4 ∨ m = 6 ∨ m = 9 ∨ m = 11 then 30
  else 31

/-- Two decimal digit characters as a number. -/
def digit2 (c1 c2 : Char) : Option ℕ :=
  if c1.isDigit ∧ c2.isDigit then some (10 * digitVal c1 + digitVal c2) else none

/-- Four decimal digit characters as a number. -/
def digit4 (c1 c2 c3 c4 : Char) : Option ℕ :=
  if c1.isDigit ∧ c2.isDigit ∧ c3.isDigit ∧ c4.isDigit then
    some (1000 * digitVal c1 + 100 * digitVal c2 + 10 * digitVal c3 + digitVal c4)
  else none

/-- Time-of-day part `HH:MM` or `HH:MM:SS` of an ISO string. -/
def parseTimePart : List Char → Option (ℕ × ℕ × ℕ)
  | [h1, h2, ':', m1, m2] => do
    let h ← digit2 h1 h2
    let mi ← digit2 m1 m2
    if h ≤ 23 ∧ mi ≤ 59 then some (h, mi, 0) else none
  | [h1, h2, ':', m1, m2, ':', s1, s2] => do
    let h ← digit2 h1 h2
    let mi ← digit2 m1 m2
    let s ← digit2 s1 s2
    if h ≤ 23 ∧ mi ≤ 59 ∧ s ≤ 59 then some (h, mi, s) else none
  | _ => none

/-- Model of `datetime.fromisoformat(s)`: `YYYY-MM-DD`, optionally followed
by a separator and `HH:MM[:SS]`, with calendar validation.  `none` models
the `ValueError` that CPython raises on anything else. -/
def fromisoformat (s : String) : Option DateTime :=
  match s.data with
  | y1 :: y2 :: y3 :: y4 :: '-' :: m1 :: m2 :: '-' :: d1 :: d2 :: rest => do
    let y ← digit4 y1 y2 y3 y4
    let mo ← digit2 m1 m2
    let d ← digit2 d1 d2
    if 1 ≤ y ∧ 1 ≤ mo ∧ mo ≤ 12 ∧ 1 ≤ d ∧ d ≤ daysInMonth y mo then
      match rest with
      | [] => some ⟨y, mo, d, 0, 0, 0⟩
      | sep :: timeChars =>
        if sep = 'T' ∨ sep = ' ' then
          (parseTimePart timeChars).map (fun t => ⟨y, mo, d, t.1, t.2.1, t.2.2⟩)
        else none
    else none
  | _ => none

/-! ## Dictionaries as association lists -/

/-- First-match association-list lookup: Python `m[k]` / `m.get(k)`. -/
def alookup {α β : Type} [DecidableEq α] : List (α × β) → α → Option β
  | [], _ => none
  | (k, v) :: rest, k2 => if k = k2 then some v else alookup rest k2

/-- The key list of a mapping. -/
def keys {α β : Type} (m : List (α × β)) : List α := m.map Prod.fst

/-- Python `k in m`. -/
def memKey {α β : Type} [DecidableEq α] (m : List (α × β)) (k : α) : Bool :=
  (alookup m k).isSome

/-- Python `defaultdict(float)` update `m[k] += v`: add to the entry at `k`
if present, otherwise append a fresh entry holding `v` (the default `0.0`
plus `v`). -/
def addToMap {α : Type} [DecidableEq α] : List (α × ℚ) → α → ℚ → List (α × ℚ)
  | [], k, v => [(k, v)]
  | (k2, v2) :: rest, k, v =>
    if k2 = k then (k2, v2 + v) :: rest else (k2, v2) :: addToMap rest k v

/-! ## Data model and loaders (source lines 33–91) -/

/-- One value of the orders mapping:
`{ "date": datetime, "subtotal": float, "refund": float }`. -/
structure Order where
  date : DateTime
  subtotal : ℚ
  refund : ℚ
deriving DecidableEq

/-- One row of the orders file, with the columns `load_orders` reads.
A short CSV row can leave a field `None`, which `parse_money` accepts, so
the subtotal column is optional text. -/
structure OrderRow where
  orderID : String
  shipmentItemSubtotal : Option String
  orderDate : String
deriving DecidableEq

/-- One row of the refunds file, with the columns `load_refunds` reads. -/
structure RefundRow where
  orderID : String
  amountRefunded : Option String
deriving DecidableEq

/-- The loop of `load_orders`, with the orders accumulated so far made
explicit.  Per row: skip if the identifier is already recorded; skip if the
subtotal does not parse; parse the date (deleting `Z` first), where failure
is an error that aborts the whole load; otherwise record the new order with
a zero refund accumulator. -/
def loadOrdersAux : List (String × Order) → List OrderRow →
    Except String (List (String × Order))
  | orders, [] => Except.ok orders
  | orders, row :: rest =>
    if memKey orders row.orderID then loadOrdersAux orders rest
    else
      match parse_money row.shipmentItemSubtotal with
      | none => loadOrdersAux orders rest
      | some subtotal =>
        match fromisoformat (removeZ row.orderDate) with
        | none => Except.error row.orderDate
        | some dt => loadOrdersAux (orders ++ [(row.orderID, ⟨dt, subtotal, 0⟩)]) rest

/-- `load_orders` on the row sequence read from the file. -/
def load_orders (rows : List OrderRow) : Except String (List (String × Order)) :=
  loadOrdersAux [] rows

/-- `load_refunds`: accumulate parsed refund amounts by identifier into a
`defaultdict(float)`; rows whose amount does not parse are skipped. -/
def load_refunds (rows : List RefundRow) : List (String × ℚ) :=
  rows.foldl (fun refunds row =>
    match parse_money row.amountRefunded with
    | none => refunds
    | some amount => addToMap refunds row.orderID amount) []

/-! ## Aggregator (source lines 88–116) -/

/-- One step of `apply_refunds`: `orders[order_id]["refund"] += amount`
guarded by `order_id in orders`; a missing identifier changes nothing. -/
def addRefund : List (String × Order) → String → ℚ → List (String × Order)
  | [], _, _ => []
  | (k, o) :: rest, oid, amt =>
    if k = oid then (k, { o with refund := o.refund + amt }) :: rest
    else (k, o) :: addRefund rest oid amt

/-- `apply_refunds(orders, refunds)`: fold the per-identifier update over
`refunds.items()`; the in-place mutation becomes the returned mapping. -/
def apply_refunds (orders : List (String × Order)) (refunds : List (String × ℚ)) :
    List (String × Order) :=
  refunds.foldl (fun os p => addRefund os p.1 p.2) orders

/-- The net amount `order["subtotal"] - order["refund"]` computed by both
reporting functions. -/
def net (o : Order) : ℚ := o.subtotal - o.refund

/-- `yearly_totals(orders)`: accumulate each order's net amount into a
`defaultdict(float)` keyed by the year of its date. -/
def yearly_totals (orders : List (String × Order)) : List (ℕ × ℚ) :=
  orders.foldl (fun totals p => addToMap totals p.2.date.year (net p.2)) []

/-- `monthly_totals_for_year(orders, year)`: like `yearly_totals` but only
over orders of the given year, keyed by month. -/
def monthly_totals_for_year (orders : List (String × Order)) (year : ℕ) :
    List (ℕ × ℚ) :=
  orders.foldl (fun totals p =>
    if p.2.date.year = year then addToMap totals p.2.date.month (net p.2)
    else totals) []

/-- The order a single row yields when both of its fields parse: the parsed
date (after `Z` deletion), the parsed subtotal, and a zero refund
accumulator.  `none` when the subtotal or the date does not parse. -/
def rowOrder (row : OrderRow) : Option Order :=
  match parse_money row.shipmentItemSubtotal, fromisoformat (removeZ row.orderDate) with
  | some s, some dt => some ⟨dt, s, 0⟩
  | _, _ => none

/-- The first row of the sequence carrying the given identifier and a
subtotal that parses: the row whose data `load_orders` records for that
identifier. -/
def firstRowFor (rows : List OrderRow) (id : String) : Option OrderRow :=
  rows.find? (fun r => r.orderID == id && (parse_money r.shipmentItemSubtotal).isSome)

/-- The sum of a mapping's values, `sum(m.values())`. -/
def sumValues {α : Type} (m : List (α × ℚ)) : ℚ := (m.map Prod.snd).sum

/-! ## The spec's running example order set -/

/-- Orders `{A: 2024-03-01 $100, B: 2024-07-01 $50 refund $20,
C: 2025-01-01 $10}`. -/
def exampleOrders : List (String × Order) :=
  [("A", ⟨⟨2024, 3, 1, 0, 0, 0⟩, 100, 0⟩),
   ("B", ⟨⟨2024, 7, 1, 0, 0, 0⟩, 50, 20⟩),
   ("C", ⟨⟨2025, 1, 1, 0, 0, 0⟩, 10, 0⟩)]

/-- A small orders-file row sequence exercising dedup (two `A` rows) and a
malformed subtotal (the `B` row). -/
def exampleRows : List OrderRow :=
  [⟨"A", some "100", "2024-03-01"⟩,
   ⟨"A", some "999", "2024-05-05"⟩,
   ⟨"B", some "abc", "2024-06-06"⟩]

/-- The mapping `load_orders` produces from `exampleRows`. -/
def exampleLoaded : List (String × Order) :=
  [("A", ⟨⟨2024, 3, 1, 0, 0, 0⟩, ((100 : ℕ) : ℚ), 0⟩)]

example : parse_money (some "1,234.56") = some (1234.56 : ℚ) := by norm_num +decide [parse_money, pyStrip, removeCommas, pyFloat, pyFloatUnsigned, pyFloatExp, natOfDigits]
example : parse_money (some "abc") = none := by decide
example : parse_money (some "   ") = none := by decide
example : parse_money (some "12,34") = some (1234 : ℚ) := by norm_num +decide [parse_money, pyStrip, removeCommas, pyFloat, pyFloatUnsigned, pyFloatExp, natOfDigits]
example : parse_money (some "1,2,3.5") = some (123.5 : ℚ) := by norm_num +decide [parse_money, pyStrip, removeCommas, pyFloat, pyFloatUnsigned, pyFloatExp, natOfDigits]
example : yearly_totals exampleOrders = [(2024, 130), (2025, 10)] := by norm_num [yearly_totals, exampleOrders, addToMap, net]
example : monthly_totals_for_year exampleOrders 2024 = [(3, 100), (7, 30)] := by norm_num [monthly_totals_for_year, exampleOrders, addToMap, net]
example : monthly_totals_for_year exampleOrders 2026 = [] := by norm_num [monthly_totals_for_year, exampleOrders, addToMap, net]
example : fromisoformat "2024-03-01" = some ⟨2024, 3, 1, 0, 0, 0⟩ := by decide
example : fromisoformat (removeZ "2024-03-01T10:20:30Z") =
    some ⟨2024, 3, 1, 10, 20, 30⟩ := by decide
example : fromisoformat "2024-13-01" = none := by decide

/-! ## Association-list lemmas -/

theorem alookup_append {α β : Type} [DecidableEq α] (l1 l2 : List (α × β)) (k : α) :
    alookup (l1 ++ l2) k =
      match alookup l1 k with
      | some v => some v
      | none => alookup l2 k := by
  induction l1 with
  | nil => simp [alookup]
  | cons p rest ih =>
    obtain ⟨k2, v2⟩ := p
    by_cases h : k2 = k <;> simp [alookup, h, ih]

@[simp] theorem keys_nil {α β : Type} : keys ([] : List (α × β)) = [] := rfl

@[simp] theorem keys_cons {α β : Type} (p : α × β) (l : List (α × β)) :
    keys (p :: l) = p.1 :: keys l := rfl

theorem alookup_eq_none {α β : Type} [DecidableEq α] (l : List (α × β)) (k : α) :
    alookup l k = none ↔ k ∉ keys l := by
  induction l with
  | nil => simp [alookup]
  | cons p rest ih =>
    obtain ⟨k2, v2⟩ := p
    by_cases h : k2 = k
    · subst h
      simp [alookup]
    · have h2 : ¬ k = k2 := fun hh => h hh.symm
      simp [alookup, h, ih, h2]

theorem alookup_addToMap_self {α : Type} [DecidableEq α]
    (m : List (α × ℚ)) (k : α) (v : ℚ) :
    alookup (addToMap m k v) k = some ((alookup m k).getD 0 + v) := by
  induction m with
  | nil => simp [addToMap, alookup]
  | cons p rest ih =>
    obtain ⟨k2, v2⟩ := p
    by_cases h : k2 = k <;> simp [addToMap, alookup, h, ih]

theorem alookup_addToMap_ne {α : Type} [DecidableEq α]
    (m : List (α × ℚ)) (k k2 : α) (v : ℚ) (h : k2 ≠ k) :
    alookup (addToMap m k v) k2 = alookup m k2 := by
  have h2 : ¬ k = k2 := fun hh => h hh.symm
  induction m with
  | nil => simp [addToMap, alookup, h2]
  | cons p rest ih =>
    obtain ⟨k3, v3⟩ := p
    by_cases h3 : k3 = k
    · subst h3
      simp [addToMap, alookup, h2]
    · by_cases h4 : k3 = k2 <;> simp [addToMap, alookup, h3, h4, h, ih]

theorem mem_keys_addToMap {α : Type} [DecidableEq α]
    (m : List (α × ℚ)) (k k2 : α) (v : ℚ) :
    k2 ∈ keys (addToMap m k v) ↔ k2 ∈ keys m ∨ k2 = k := by
  induction m with
  | nil => simp [addToMap]
  | cons p rest ih =>
    obtain ⟨k3, v3⟩ := p
    by_cases h3 : k3 = k
    · subst h3
      simp [addToMap]
      tauto
    · simp [addToMap, h3, ih]
      tauto

theorem sumValues_addToMap {α : Type} [DecidableEq α]
    (m : List (α × ℚ)) (k : α) (v : ℚ) :
    sumValues (addToMap m k v) = sumValues m + v := by
  induction m with
  | nil => simp [addToMap, sumValues]
  | cons p rest ih =>
    obtain ⟨k2, v2⟩ := p
    by_cases h : k2 = k <;> simp [addToMap, sumValues, h] at ih ⊢ <;> ring_nf
    · rw [ih]; ring

/-! ## Grouped accumulation (the `defaultdict` loops of the reporting code) -/

theorem alookup_groupFold {α κ : Type} [DecidableEq κ] (key : α → κ) (val : α → ℚ) :
    ∀ (l : List α) (acc : List (κ × ℚ)) (k : κ),
      alookup (l.foldl (fun t p => addToMap t (key p) (val p)) acc) k =
        if (alookup acc k).isSome ∨ l.any (fun p => decide (key p = k)) then
          some ((alookup acc k).getD 0 +
            ((l.filter fun p => decide (key p = k)).map val).sum)
        else none := by
  intro l
  induction l with
  | nil =>
    intro acc k
    cases h : alookup acc k <;> simp [h]
  | cons p l ih =>
    intro acc k
    rw [List.foldl_cons, ih]
    by_cases hk : key p = k
    · simp [hk, alookup_addToMap_self, List.filter_cons, List.any_cons]
      ring
    · simp [hk, alookup_addToMap_ne _ _ _ _ (fun hh => hk hh.symm),
        List.filter_cons, List.any_cons]

theorem mem_keys_groupFold {α κ : Type} [DecidableEq κ] (key : α → κ) (val : α → ℚ) :
    ∀ (l : List α) (acc : List (κ × ℚ)) (k : κ),
      k ∈ keys (l.foldl (fun t p => addToMap t (key p) (val p)) acc) →
      k ∈ keys acc ∨ ∃ p ∈ l, key p = k := by
  intro l
  induction l with
  | nil => intro acc k h; exact Or.inl h
  | cons p l ih =>
    intro acc k h
    rw [List.foldl_cons] at h
    rcases ih _ _ h with h2 | h2
    · rcases (mem_keys_addToMap _ _ _ _).mp h2 with h3 | h3
      · exact Or.inl h3
      · exact Or.inr ⟨p, List.mem_cons_self _ _, h3.symm⟩
    · obtain ⟨q, hq, hqk⟩ := h2
      exact Or.inr ⟨q, List.mem_cons_of_mem _ hq, hqk⟩

theorem sumValues_groupFold {α κ : Type} [DecidableEq κ] (key : α → κ) (val : α → ℚ) :
    ∀ (l : List α) (acc : List (κ × ℚ)),
      sumValues (l.foldl (fun t p => addToMap t (key p) (val p)) acc) =
        sumValues acc + (l.map val).sum := by
  intro l
  induction l with
  | nil => intro acc; simp
  | cons p l ih =>
    intro acc
    rw [List.foldl_cons, ih, sumValues_addToMap]
    simp
    ring

/-! ## Lemmas about `apply_refunds` -/

theorem alookup_addRefund_self (os : List (String × Order)) (k : String) (a : ℚ) :
    alookup (addRefund os k a) k =
      (alookup os k).map (fun o => { o with refund := o.refund + a }) := by
  induction os with
  | nil => simp [addRefund, alookup]
  | cons p rest ih =>
    obtain ⟨k2, o2⟩ := p
    by_cases h : k2 = k <;> simp [addRefund, alookup, h, ih]

theorem alookup_addRefund_ne (os : List (String × Order)) (k k2 : String) (a : ℚ)
    (h : k2 ≠ k) :
    alookup (addRefund os k a) k2 = alookup os k2 := by
  have h2 : ¬ k = k2 := fun hh => h hh.symm
  induction os with
  | nil => simp [addRefund, alookup]
  | cons p rest ih =>
    obtain ⟨k3, o3⟩ := p
    by_cases h3 : k3 = k
    · subst h3
      simp [addRefund, alookup, h2]
    · by_cases h4 : k3 = k2 <;> simp [addRefund, alookup, h3, h4, h, ih]

theorem addRefund_of_absent (os : List (String × Order)) (k : String) (a : ℚ)
    (h : alookup os k = none) : addRefund os k a = os := by
  induction os with
  | nil => rfl
  | cons p rest ih =>
    obtain ⟨k2, o2⟩ := p
    by_cases h2 : k2 = k
    · simp [alookup, h2] at h
    · simp [alookup, h2] at h
      simp [addRefund, h2, ih h]

theorem keys_addRefund (os : List (String × Order)) (k : String) (a : ℚ) :
    keys (addRefund os k a) = keys os := by
  induction os with
  | nil => rfl
  | cons p rest ih =>
    obtain ⟨k2, o2⟩ := p
    by_cases h : k2 = k <;> simp [addRefund, h, ih]

theorem frame_addRefund (os : List (String × Order)) (k : String) (a : ℚ) :
    (addRefund os k a).map (fun p => (p.1, p.2.date, p.2.subtotal)) =
      os.map (fun p => (p.1, p.2.date, p.2.subtotal)) := by
  induction os with
  | nil => rfl
  | cons p rest ih =>
    obtain ⟨k2, o2⟩ := p
    by_cases h : k2 = k <;> simp [addRefund, h, ih]

@[simp] theorem apply_refunds_nil (os : List (String × Order)) :
    apply_refunds os [] = os := rfl

@[simp] theorem apply_refunds_cons (os : List (String × Order))
    (p : String × ℚ) (rest : List (String × ℚ)) :
    apply_refunds os (p :: rest) = apply_refunds (addRefund os p.1 p.2) rest := rfl

theorem alookup_apply_refunds_of_absent (rs : List (String × ℚ)) :
    ∀ (os : List (String × Order)) (oid : String), alookup rs oid = none →
      alookup (apply_refunds os rs) oid = alookup os oid := by
  induction rs with
  | nil => intro os oid _; rfl
  | cons p rest ih =>
    intro os oid h
    obtain ⟨k, a⟩ := p
    have hk : ¬ k = oid := by
      intro hh
      simp [alookup, hh] at h
    have hr : alookup rest oid = none := by
      simpa [alookup, hk] using h
    rw [apply_refunds_cons]
    rw [ih _ _ hr, alookup_addRefund_ne _ _ _ _ (fun hh => hk hh.symm)]

theorem alookup_apply_refunds (rs : List (String × ℚ)) :
    ∀ (os : List (String × Order)) (oid : String), (keys rs).Nodup →
      alookup (apply_refunds os rs) oid =
        match alookup rs oid with
        | none => alookup os oid
        | some a => (alookup os oid).map (fun o => { o with refund := o.refund + a }) := by
  induction rs with
  | nil => intro os oid _; simp [alookup]
  | cons p rest ih =>
    intro os oid hnd
    obtain ⟨k, a⟩ := p
    rw [apply_refunds_cons]
    have hnd2 : (keys rest).Nodup := (List.nodup_cons.mp hnd).2
    have hknotin : k ∉ keys rest := (List.nodup_cons.mp hnd).1
    by_cases hk : k = oid
    · subst hk
      have hrest : alookup rest k = none := (alookup_eq_none _ _).mpr hknotin
      rw [alookup_apply_refunds_of_absent _ _ _ hrest]
      simp [alookup, alookup_addRefund_self]
    · have h2 : oid ≠ k := fun hh => hk hh.symm
      rw [ih _ _ hnd2, alookup_addRefund_ne _ _ _ _ h2]
      cases hr : alookup rest oid <;> simp [alookup, hk, hr]

theorem keys_apply_refunds (rs : List (String × ℚ)) :
    ∀ os : List (String × Order), keys (apply_refunds os rs) = keys os := by
  induction rs with
  | nil => intro os; rfl
  | cons p rest ih =>
    intro os
    rw [apply_refunds_cons, ih, keys_addRefund]

theorem frame_apply_refunds (rs : List (String × ℚ)) :
    ∀ os : List (String × Order),
      (apply_refunds os rs).map (fun p => (p.1, p.2.date, p.2.subtotal)) =
        os.map (fun p => (p.1, p.2.date, p.2.subtotal)) := by
  induction rs with
  | nil => intro os; rfl
  | cons p rest ih =>
    intro os
    rw [apply_refunds_cons, ih, frame_addRefund]

theorem apply_refunds_id_of_unmatched (rs : List (String × ℚ)) :
    ∀ os : List (String × Order),
      (∀ oid ∈ keys rs, alookup os oid = none) → apply_refunds os rs = os := by
  induction rs with
  | nil => intro os _; rfl
  | cons p rest ih =>
    intro os h
    obtain ⟨k, a⟩ := p
    rw [apply_refunds_cons]
    have hk := h k (List.mem_cons_self _ _)
    rw [addRefund_of_absent _ _ _ hk]
    exact ih os (fun oid hoid => h oid (List.mem_cons_of_mem _ hoid))

/-! ## Rewriting the monthly loop as filter-then-group -/

theorem monthly_totals_eq_filter (year : ℕ) :
    ∀ (l : List (String × Order)) (acc : List (ℕ × ℚ)),
      (l.foldl (fun t p =>
          if p.2.date.year = year then addToMap t p.2.date.month (net p.2) else t) acc) =
        (l.filter fun p => decide (p.2.date.year = year)).foldl
          (fun t p => addToMap t p.2.date.month (net p.2)) acc := by
  intro l
  induction l with
  | nil => intro acc; rfl
  | cons p rest ih =>
    intro acc
    by_cases h : p.2.date.year = year <;>
      simp [List.foldl_cons, List.filter_cons, h, ih]

theorem monthly_totals_def (orders : List (String × Order)) (year : ℕ) :
    monthly_totals_for_year orders year =
      (orders.filter fun p => decide (p.2.date.year = year)).foldl
        (fun t p => addToMap t p.2.date.month (net p.2)) [] :=
  monthly_totals_eq_filter year orders []

/-! ## Lemmas about `load_orders` -/

theorem keys_append {α β : Type} (l1 l2 : List (α × β)) :
    keys (l1 ++ l2) = keys l1 ++ keys l2 :=
  List.map_append _ _ _

theorem firstRowFor_cons_skip (row : OrderRow) (rest : List OrderRow) (id : String)
    (h : (row.orderID == id && (parse_money row.shipmentItemSubtotal).isSome) = false) :
    firstRowFor (row :: rest) id = firstRowFor rest id := by
  simp only [firstRowFor, List.find?, h, cond_false]

theorem firstRowFor_cons_here (row : OrderRow) (rest : List OrderRow) (id : String)
    (h : (row.orderID == id && (parse_money row.shipmentItemSubtotal).isSome) = true) :
    firstRowFor (row :: rest) id = some row := by
  simp only [firstRowFor, List.find?, h, cond_true]

theorem loadOrdersAux_append (rows1 : List OrderRow) :
    ∀ (rows2 : List OrderRow) (acc : List (String × Order)),
      loadOrdersAux acc (rows1 ++ rows2) =
        match loadOrdersAux acc rows1 with
        | Except.ok m => loadOrdersAux m rows2
        | Except.error e => Except.error e := by
  induction rows1 with
  | nil => intro rows2 acc; simp [loadOrdersAux]
  | cons row rest ih =>
    intro rows2 acc
    simp only [List.cons_append, loadOrdersAux]
    cases hm : memKey acc row.orderID with
    | true => simp [hm, ih]
    | false =>
      simp only [hm, Bool.false_eq_true, if_false]
      cases hp : parse_money row.shipmentItemSubtotal with
      | none => simp [hp, ih]
      | some st =>
        cases hd : fromisoformat (removeZ row.orderDate) with
        | none => simp [hp, hd]
        | some dt => simp [hp, hd, ih]

theorem loadOrdersAux_skip (row : OrderRow) (rest : List OrderRow)
    (acc : List (String × Order)) (h : parse_money row.shipmentItemSubtotal = none) :
    loadOrdersAux acc (row :: rest) = loadOrdersAux acc rest := by
  simp only [loadOrdersAux]
  cases hm : memKey acc row.orderID <;> simp [hm, h]

theorem loadOrdersAux_mono (rows : List OrderRow) :
    ∀ (acc m : List (String × Order)) (id : String) (o : Order),
      loadOrdersAux acc rows = Except.ok m → alookup acc id = some o →
      alookup m id = some o := by
  induction rows with
  | nil =>
    intro acc m id o h hacc
    simp only [loadOrdersAux, Except.ok.injEq] at h
    exact h ▸ hacc
  | cons row rest ih =>
    intro acc m id o h hacc
    simp only [loadOrdersAux] at h
    cases hm : memKey acc row.orderID with
    | true =>
      simp only [hm, if_true] at h
      exact ih _ _ _ _ h hacc
    | false =>
      simp only [hm, Bool.false_eq_true, if_false] at h
      cases hp : parse_money row.shipmentItemSubtotal with
      | none =>
        rw [hp] at h
        exact ih _ _ _ _ h hacc
      | some st =>
        rw [hp] at h
        cases hd : fromisoformat (removeZ row.orderDate) with
        | none => rw [hd] at h; simp at h
        | some dt =>
          rw [hd] at h
          refine ih _ _ _ _ h ?_
          rw [alookup_append, hacc]

theorem loadOrdersAux_find (rows : List OrderRow) :
    ∀ (acc m : List (String × Order)) (id : String),
      loadOrdersAux acc rows = Except.ok m → alookup acc id = none →
      alookup m id = (firstRowFor rows id).bind rowOrder := by
  induction rows with
  | nil =>
    intro acc m id h hacc
    simp only [loadOrdersAux, Except.ok.injEq] at h
    simp [firstRowFor, ← h, hacc]
  | cons row rest ih =>
    intro acc m id h hacc
    simp only [loadOrdersAux] at h
    cases hm : memKey acc row.orderID with
    | true =>
      simp only [hm, if_true] at h
      have hb : (row.orderID == id) = false := by
        cases hbe : row.orderID == id with
        | false => rfl
        | true =>
          have he : row.orderID = id := by simpa using hbe
          rw [he] at hm
          simp [memKey, hacc] at hm
      rw [firstRowFor_cons_skip _ _ _ (by simp [hb])]
      exact ih _ _ _ h hacc
    | false =>
      simp only [hm, Bool.false_eq_true, if_false] at h
      cases hp : parse_money row.shipmentItemSubtotal with
      | none =>
        rw [hp] at h
        rw [firstRowFor_cons_skip _ _ _ (by simp [hp])]
        exact ih _ _ _ h hacc
      | some st =>
        rw [hp] at h
        cases hd : fromisoformat (removeZ row.orderDate) with
        | none => rw [hd] at h; simp at h
        | some dt =>
          rw [hd] at h
          cases hbe : row.orderID == id with
          | true =>
            have he : row.orderID = id := by simpa using hbe
            rw [firstRowFor_cons_here _ _ _ (by simp [hbe, hp])]
            have hacc2 : alookup (acc ++ [(row.orderID, ⟨dt, st, 0⟩)]) id =
                some ⟨dt, st, 0⟩ := by
              rw [alookup_append, hacc]
              simp [alookup, he]
            have := loadOrdersAux_mono rest _ _ _ _ h hacc2
            rw [this]
            simp [rowOrder, hp, hd]
          | false =>
            have hne : ¬ row.orderID = id := by simpa using hbe
            rw [firstRowFor_cons_skip _ _ _ (by simp [hbe])]
            refine ih _ _ _ h ?_
            rw [alookup_append, hacc]
            simp [alookup, hne]

theorem loadOrdersAux_nodup (rows : List OrderRow) :
    ∀ (acc m : List (String × Order)), (keys acc).Nodup →
      loadOrdersAux acc rows = Except.ok m → (keys m).Nodup := by
  induction rows with
  | nil =>
    intro acc m hn h
    simp only [loadOrdersAux, Except.ok.injEq] at h
    exact h ▸ hn
  | cons row rest ih =>
    intro acc m hn h
    simp only [loadOrdersAux] at h
    cases hm : memKey acc row.orderID with
    | true =>
      simp only [hm, if_true] at h
      exact ih _ _ hn h
    | false =>
      simp only [hm, Bool.false_eq_true, if_false] at h
      cases hp : parse_money row.shipmentItemSubtotal with
      | none =>
        rw [hp] at h
        exact ih _ _ hn h
      | some st =>
        rw [hp] at h
        cases hd : fromisoformat (removeZ row.orderDate) with
        | none => rw [hd] at h; simp at h
        | some dt =>
          rw [hd] at h
          refine ih _ _ ?_ h
          have hnot : row.orderID ∉ keys acc := by
            refine (alookup_eq_none _ _).mp ?_
            cases hq : alookup acc row.orderID with
            | none => rfl
            | some o => simp [memKey, hq] at hm
          rw [keys_append]
          simp [List.nodup_append, hn, hnot]

theorem loadOrdersAux_refund0 (rows : List OrderRow) :
    ∀ (acc m : List (String × Order)), (∀ p ∈ acc, p.2.refund = 0) →
      loadOrdersAux acc rows = Except.ok m → ∀ p ∈ m, p.2.refund = 0 := by
  induction rows with
  | nil =>
    intro acc m h0 h
    simp only [loadOrdersAux, Except.ok.injEq] at h
    exact h ▸ h0
  | cons row rest ih =>
    intro acc m h0 h
    simp only [loadOrdersAux] at h
    cases hm : memKey acc row.orderID with
    | true =>
      simp only [hm, if_true] at h
      exact ih _ _ h0 h
    | false =>
      simp only [hm, Bool.false_eq_true, if_false] at h
      cases hp : parse_money row.shipmentItemSubtotal with
      | none =>
        rw [hp] at h
        exact ih _ _ h0 h
      | some st =>
        rw [hp] at h
        cases hd : fromisoformat (removeZ row.orderDate) with
        | none => rw [hd] at h; simp at h
        | some dt =>
          rw [hd] at h
          refine ih _ _ ?_ h
          intro p hp2
          rcases List.mem_append.mp hp2 with hp3 | hp3
          · exact h0 p hp3
          · simp only [List.mem_singleton] at hp3
            rw [hp3]

/-! ## Claim theorems -/

/-- C1: `yearly_totals` maps each calendar year that occurs among the
orders to the sum of (subtotal − refund) over the orders of that year,
contains no key for a year with zero orders, and over the example order
set yields `{2024: 130.0, 2025: 10.0}`. -/
theorem yearly_totals_spec :
    (∀ (orders : List (String × Order)) (y : ℕ),
      alookup (yearly_totals orders) y =
        if orders.any (fun p => decide (p.2.date.year = y)) then
          some (((orders.filter fun p => decide (p.2.date.year = y)).map
            (fun p => net p.2)).sum)
        else none) ∧
    yearly_totals exampleOrders = [(2024, 130), (2025, 10)] := by
  constructor
  · intro orders y
    have h := alookup_groupFold (fun p => p.2.date.year) (fun p => net p.2) orders [] y
    have hnone : alookup ([] : List (ℕ × ℚ)) y = none := rfl
    rw [hnone] at h
    simp only [Option.isSome_none, Bool.false_eq_true, false_or, Option.getD_none,
      zero_add] at h
    exact h
  · norm_num [yearly_totals, exampleOrders, addToMap, net]

/-- C6: summing all the values of `yearly_totals` equals summing the net
amount over every order directly: the grouping neither drops nor
double-counts an order. -/
theorem yearly_totals_sum_spec :
    ∀ orders : List (String × Order),
      sumValues (yearly_totals orders) = (orders.map (fun p => net p.2)).sum := by
  intro orders
  have h := sumValues_groupFold (fun p => p.2.date.year) (fun p => net p.2) orders []
  simpa [yearly_totals, sumValues] using h

/-- C5: `monthly_totals_for_year` keeps only the orders of the given year,
groups them by month and sums net amounts per month; it is the empty
mapping when no order matches the year; its keys lie in {1..12} whenever
every order's month does; and over the example set it yields
`{3: 100.0, 7: 30.0}` for 2024 and `{}` for 2026. -/
theorem monthly_totals_for_year_spec :
    (∀ (orders : List (String × Order)) (year mo : ℕ),
      alookup (monthly_totals_for_year orders year) mo =
        if (orders.filter fun p => decide (p.2.date.year = year)).any
            (fun p => decide (p.2.date.month = mo)) then
          some ((((orders.filter fun p => decide (p.2.date.year = year)).filter
            fun p => decide (p.2.date.month = mo)).map (fun p => net p.2)).sum)
        else none) ∧
    (∀ (orders : List (String × Order)) (year : ℕ),
      (∀ p ∈ orders, ¬ p.2.date.year = year) →
      monthly_totals_for_year orders year = []) ∧
    (∀ (orders : List (String × Order)) (year mo : ℕ),
      (∀ p ∈ orders, 1 ≤ p.2.date.month ∧ p.2.date.month ≤ 12) →
      mo ∈ keys (monthly_totals_for_year orders year) → 1 ≤ mo ∧ mo ≤ 12) ∧
    monthly_totals_for_year exampleOrders 2024 = [(3, 100), (7, 30)] ∧
    monthly_totals_for_year exampleOrders 2026 = [] := by
  refine ⟨?_, ?_, ?_, ?_, ?_⟩
  · intro orders year mo
    rw [monthly_totals_def]
    have h := alookup_groupFold (fun p => p.2.date.month) (fun p => net p.2)
      (orders.filter fun p => decide (p.2.date.year = year)) [] mo
    have hnone : alookup ([] : List (ℕ × ℚ)) mo = none := rfl
    rw [hnone] at h
    simp only [Option.isSome_none, Bool.false_eq_true, false_or, Option.getD_none,
      zero_add] at h
    exact h
  · intro orders year h
    rw [monthly_totals_def]
    have hnil : orders.filter (fun p => decide (p.2.date.year = year)) = [] := by
      rw [List.filter_eq_nil_iff]
      intro p hp
      simpa using h p hp
    rw [hnil]
    rfl
  · intro orders year mo hval hmem
    rw [monthly_totals_def] at hmem
    rcases mem_keys_groupFold _ _ _ _ _ hmem with h1 | ⟨p, hp, hpk⟩
    · simp at h1
    · exact hpk ▸ hval p (List.mem_of_mem_filter hp)
  · norm_num [monthly_totals_for_year, exampleOrders, addToMap, net]
  · norm_num [monthly_totals_for_year, exampleOrders, addToMap, net]

/-- Witness for C5 at the example order set. -/
theorem monthly_totals_for_year_spec_witness :
    (∀ p ∈ exampleOrders, ¬ p.2.date.year = 2026) ∧
    monthly_totals_for_year exampleOrders 2026 = [] ∧
    (∀ p ∈ exampleOrders, 1 ≤ p.2.date.month ∧ p.2.date.month ≤ 12) ∧
    (1 ≤ 3 ∧ 3 ≤ 12) :=
  ⟨by decide,
   monthly_totals_for_year_spec.2.1 exampleOrders 2026 (by decide),
   by decide,
   monthly_totals_for_year_spec.2.2.1 exampleOrders 2024 3 (by decide)
     (by rw [monthly_totals_for_year_spec.2.2.2.1]; decide)⟩

/-- C4: `parse_money` yields NONE on absent, empty and whitespace-only
input; otherwise it strips surrounding whitespace, deletes commas and
attempts numeric conversion, yielding NONE (never raising) on failure; in
particular `"1,234.56"` parses to `1234.56` and `"abc"` to NONE. -/
theorem parse_money_spec :
    parse_money none = none ∧
    parse_money (some "") = none ∧
    parse_money (some "   ") = none ∧
    (∀ s : String, ¬ pyStrip s = "" →
      parse_money (some s) = pyFloat (removeCommas (pyStrip s))) ∧
    parse_money (some "1,234.56") = some (1234.56 : ℚ) ∧
    parse_money (some "abc") = none := by
  refine ⟨rfl, by decide, by decide, ?_, ?_, by decide⟩
  · intro s h
    simp [parse_money, h]
  · norm_num +decide [parse_money, pyStrip, removeCommas, pyFloat, pyFloatUnsigned,
      pyFloatExp, natOfDigits]

/-- Witness for C4 at the input `"abc"`. -/
theorem parse_money_spec_witness :
    (¬ pyStrip "abc" = "") ∧
    parse_money (some "abc") = pyFloat (removeCommas (pyStrip "abc")) :=
  ⟨by decide, parse_money_spec.2.2.2.1 "abc" (by decide)⟩

/-- C10: `parse_money` deletes every comma wherever it sits, not only
thousands separators: any input whose whitespace-trimmed, comma-deleted
form converts to a number yields that number, e.g. `"12,34" ↦ 1234.0` and
`"1,2,3.5" ↦ 123.5`. -/
theorem parse_money_comma_spec :
    (∀ (s : String) (q : ℚ), pyFloat (removeCommas (pyStrip s)) = some q →
      parse_money (some s) = some q) ∧
    parse_money (some "12,34") = some (1234 : ℚ) ∧
    parse_money (some "1,2,3.5") = some (123.5 : ℚ) := by
  refine ⟨?_, ?_, ?_⟩
  · intro s q h
    by_cases hs : pyStrip s = ""
    · exfalso
      rw [hs] at h
      have hne : pyFloat (removeCommas "") = none := by decide
      rw [hne] at h
      exact Option.noConfusion h
    · rw [← h]
      simp [parse_money, hs]
  · norm_num +decide [parse_money, pyStrip, removeCommas, pyFloat, pyFloatUnsigned,
      pyFloatExp, natOfDigits]
  · norm_num +decide [parse_money, pyStrip, removeCommas, pyFloat, pyFloatUnsigned,
      pyFloatExp, natOfDigits]

/-- Witness for C10 at the input `"12,34"`. -/
theorem parse_money_comma_spec_witness :
    pyFloat (removeCommas (pyStrip "12,34")) = some (1234 : ℚ) ∧
    parse_money (some "12,34") = some (1234 : ℚ) := by
  have h : pyFloat (removeCommas (pyStrip "12,34")) = some (1234 : ℚ) := by
    norm_num +decide [pyStrip, removeCommas, pyFloat, pyFloatUnsigned, pyFloatExp,
      natOfDigits]
  exact ⟨h, parse_money_comma_spec.1 "12,34" 1234 h⟩

/-- C2: `apply_refunds` adds `refunds[order_id]` to the refund accumulator
of exactly the matched orders; refund entries with unknown identifiers
have no effect and raise no error, and if every refund identifier is
unknown the orders mapping is unchanged. -/
theorem apply_refunds_spec :
    (∀ (orders : List (String × Order)) (refunds : List (String × ℚ)) (oid : String),
      (keys refunds).Nodup →
      alookup (apply_refunds orders refunds) oid =
        match alookup refunds oid with
        | none => alookup orders oid
        | some a => (alookup orders oid).map
            (fun o => { o with refund := o.refund + a })) ∧
    (∀ (orders : List (String × Order)) (refunds : List (String × ℚ)),
      (∀ oid ∈ keys refunds, alookup orders oid = none) →
      apply_refunds orders refunds = orders) :=
  ⟨fun orders refunds oid h => alookup_apply_refunds refunds orders oid h,
   fun orders refunds h => apply_refunds_id_of_unmatched refunds orders h⟩

/-- Witness for C2: refund `5` on `B` is applied, a refund keyed by the
unknown identifier `Z` leaves the example orders untouched. -/
theorem apply_refunds_spec_witness :
    (keys [(("B" : String), (5 : ℚ))]).Nodup ∧
    alookup (apply_refunds exampleOrders [("B", 5)]) "B" =
      (match alookup [(("B" : String), (5 : ℚ))] "B" with
       | none => alookup exampleOrders "B"
       | some a => (alookup exampleOrders "B").map
           (fun o => { o with refund := o.refund + a })) ∧
    (∀ oid ∈ keys [(("Z" : String), (5 : ℚ))], alookup exampleOrders oid = none) ∧
    apply_refunds exampleOrders [("Z", 5)] = exampleOrders :=
  ⟨by decide,
   apply_refunds_spec.1 exampleOrders [("B", 5)] "B" (by decide),
   by decide,
   apply_refunds_spec.2 exampleOrders [("Z", 5)] (by decide)⟩

/-- C7: `apply_refunds` is not idempotent: applying the same refunds
mapping twice leaves each matched order's refund accumulator increased by
exactly twice the refund amount. -/
theorem apply_refunds_twice_spec :
    (∀ (orders : List (String × Order)) (refunds : List (String × ℚ))
      (oid : String) (o : Order) (a : ℚ), (keys refunds).Nodup →
      alookup orders oid = some o → alookup refunds oid = some a →
      alookup (apply_refunds (apply_refunds orders refunds) refunds) oid =
        some { o with refund := o.refund + a + a }) ∧
    apply_refunds (apply_refunds exampleOrders [("A", 5)]) [("A", 5)] ≠
      apply_refunds exampleOrders [("A", 5)] := by
  constructor
  · intro orders refunds oid o a hnd ho ha
    have h1 := alookup_apply_refunds refunds orders oid hnd
    rw [ha, ho] at h1
    have h2 := alookup_apply_refunds refunds (apply_refunds orders refunds) oid hnd
    rw [ha, h1] at h2
    simpa using h2
  · intro hcontra
    have h1 := congrArg (fun l => (alookup l "A").map Order.refund) hcontra
    norm_num [apply_refunds_cons, addRefund, exampleOrders, alookup] at h1

/-- Witness for C7 at the example orders with a `5` refund on `A`. -/
theorem apply_refunds_twice_spec_witness :
    (keys [(("A" : String), (5 : ℚ))]).Nodup ∧
    alookup exampleOrders "A" = some ⟨⟨2024, 3, 1, 0, 0, 0⟩, 100, 0⟩ ∧
    alookup [(("A" : String), (5 : ℚ))] "A" = some 5 ∧
    alookup (apply_refunds (apply_refunds exampleOrders [("A", 5)]) [("A", 5)]) "A" =
      some ⟨⟨2024, 3, 1, 0, 0, 0⟩, 100, 0 + 5 + 5⟩ :=
  ⟨by decide, rfl, rfl,
   apply_refunds_twice_spec.1 exampleOrders [("A", 5)] "A"
     ⟨⟨2024, 3, 1, 0, 0, 0⟩, 100, 0⟩ 5 (by decide) rfl rfl⟩

/-- C9: `apply_refunds` changes only refund fields: it adds and deletes no
key and leaves every order's subtotal and date exactly as they were. -/
theorem apply_refunds_frame_spec :
    ∀ (orders : List (String × Order)) (refunds : List (String × ℚ)),
      keys (apply_refunds orders refunds) = keys orders ∧
      (apply_refunds orders refunds).map (fun p => (p.1, p.2.date, p.2.subtotal)) =
        orders.map (fun p => (p.1, p.2.date, p.2.subtotal)) :=
  fun orders refunds =>
    ⟨keys_apply_refunds refunds orders, frame_apply_refunds refunds orders⟩

/-- C3: a successful `load_orders` has at most one entry per identifier;
each entry carries the subtotal and date of the first row for its
identifier whose subtotal parses (later duplicate rows are skipped, rows
with unparseable subtotals create nothing), and every refund accumulator
starts at zero. -/
theorem load_orders_spec :
    ∀ (rows : List OrderRow) (m : List (String × Order)),
      load_orders rows = Except.ok m →
      (keys m).Nodup ∧
      (∀ p ∈ m, p.2.refund = 0) ∧
      (∀ id : String, alookup m id = (firstRowFor rows id).bind rowOrder) := by
  intro rows m h
  exact ⟨loadOrdersAux_nodup rows [] m (by simp) h,
         loadOrdersAux_refund0 rows [] m (by simp) h,
         fun id => loadOrdersAux_find rows [] m id h rfl⟩

/-- Witness for C3 at `exampleRows` (a duplicate `A` row and a
malformed-subtotal `B` row). -/
theorem load_orders_spec_witness :
    load_orders exampleRows = Except.ok exampleLoaded ∧
    (keys exampleLoaded).Nodup ∧
    (∀ p ∈ exampleLoaded, p.2.refund = 0) ∧
    (∀ id : String, alookup exampleLoaded id = (firstRowFor exampleRows id).bind rowOrder) := by
  have h : load_orders exampleRows = Except.ok exampleLoaded := rfl
  exact ⟨h, load_orders_spec exampleRows exampleLoaded h⟩

/-- C8: the `Order Date` string has its `Z` characters (in particular a
trailing UTC designator) deleted before ISO parsing; when a processed
row's date then fails to parse, the whole load fails with an error, while
a malformed subtotal merely skips its own row. -/
theorem load_orders_date_spec :
    (∀ s : String, (∀ c ∈ s.data, ¬ c = 'Z') → removeZ (s.push 'Z') = s) ∧
    (∀ (pre : List OrderRow) (row : OrderRow) (rest : List OrderRow)
      (m : List (String × Order)),
      load_orders pre = Except.ok m →
      memKey m row.orderID = false →
      (parse_money row.shipmentItemSubtotal).isSome = true →
      fromisoformat (removeZ row.orderDate) = none →
      load_orders (pre ++ row :: rest) = Except.error row.orderDate) ∧
    (∀ (pre : List OrderRow) (row : OrderRow) (rest : List OrderRow),
      parse_money row.shipmentItemSubtotal = none →
      load_orders (pre ++ row :: rest) = load_orders (pre ++ rest)) := by
  refine ⟨?_, ?_, ?_⟩
  · intro s h
    obtain ⟨data⟩ := s
    have hp : String.push ⟨data⟩ 'Z' = ⟨data ++ ['Z']⟩ := rfl
    rw [hp]
    unfold removeZ
    apply congrArg String.mk
    rw [List.filter_append]
    simp only [List.filter_cons, List.filter_nil, decide_not]
    norm_num
    exact h
  · intro pre row rest m hpre hmem hsub hdate
    unfold load_orders at hpre ⊢
    rw [loadOrdersAux_append pre (row :: rest) [], hpre]
    obtain ⟨st, hst⟩ := Option.isSome_iff_exists.mp hsub
    simp only [loadOrdersAux, hmem, Bool.false_eq_true, if_false, hst, hdate]
  · intro pre row rest h
    unfold load_orders
    rw [loadOrdersAux_append pre (row :: rest) [], loadOrdersAux_append pre rest []]
    cases hpre : loadOrdersAux [] pre with
    | error e => rfl
    | ok m => exact loadOrdersAux_skip row rest m h

/-- Witness for C8: a clean date string gains and loses a trailing `Z`
unchanged; a bad date aborts the load; a bad subtotal only skips its row. -/
theorem load_orders_date_spec_witness :
    (∀ c ∈ ("2024-03-01" : String).data, ¬ c = 'Z') ∧
    removeZ (("2024-03-01" : String).push 'Z') = "2024-03-01" ∧
    load_orders [⟨"A", some "100", "BAD"⟩] = Except.error "BAD" ∧
    load_orders [⟨"B", some "abc", "2024-01-01"⟩] = load_orders [] := by
  refine ⟨by decide, load_orders_date_spec.1 "2024-03-01" (by decide), ?_, ?_⟩
  · have h := load_orders_date_spec.2.1 [] ⟨"A", some "100", "BAD"⟩ [] [] rfl rfl
      (by decide) (by decide)
    simpa using h
  · have h := load_orders_date_spec.2.2 [] ⟨"B", some "abc", "2024-01-01"⟩ [] (by decide)
    simpa using h

end OrderHistory
